import Mathlib

/-!
Verification of the retrieval-and-context-assembly pipeline of the
AdmissionOfficer chatbot (FastAPI + RAG over a Q&A dataset).

The development shallowly embeds the Python sources:
  * `src/src/utils.py`   — `ConversationMemory` (bounded window buffer);
  * `src/src/query.py`   — `detect_category`, `local_retrieve`,
    `format_context`, `save_result`, `retrieve_with_chroma` (modelled as an
    external oracle, since it delegates to the Chroma store and swallows its
    own errors);
  * `src/api.py`         — the `/ask` orchestration (`ask_question`) and the
    source-tag extraction.

Python strings are modelled by Lean `String`, Python `dict` metadata records
by a structure of `Option String` fields (`none` = key absent), Python
truthiness of `None`/`""` by `pyTruthy`, and Python `set` by `Finset` /
`List.dedup` (set semantics: only membership and cardinality of the result
are specified, iteration order of a Python set is arbitrary).
-/

/-! ## Python string primitives -/

/-- Python `str.lower()` (ASCII case folding, which is all the sources use). -/
def pyLower (s : String) : String := String.mk (s.data.map Char.toLower)

/-- The whitespace class of Python `str.split()` / `str.strip()` with no
arguments: space, tab, newline, carriage return, vertical tab, form feed. -/
def pyIsSpace (c : Char) : Bool :=
  c = ' ' || c = '\t' || c = '\n' || c = '\r' || c = '\x0b' || c = '\x0c'

/-- Helper for `pySplit`: accumulates the current (reversed) token. -/
def splitAux (cur : List Char) : List Char → List (List Char)
  | [] => if cur.isEmpty then [] else [cur.reverse]
  | c :: t =>
      if pyIsSpace c then
        (if cur.isEmpty then splitAux [] t else cur.reverse :: splitAux [] t)
      else splitAux (c :: cur) t

/-- Python `str.split()` with no arguments: split on runs of whitespace,
never producing empty tokens. -/
def pySplit (s : String) : List String := (splitAux [] s.data).map String.mk

/-- Whether `needle` occurs as a contiguous substring of `hay`
(Python `needle in hay` on strings). -/
def containsSub (needle hay : List Char) : Bool :=
  match hay with
  | [] => needle.isEmpty
  | _ :: t => needle.isPrefixOf hay || containsSub needle t

/-- Python `needle in hay` for strings. -/
def strContains (hay needle : String) : Bool := containsSub needle.data hay.data

/-- The punctuation characters stripped by `local_retrieve`
(`strip('.,()\x22')` in `src/src/query.py`). -/
def stripSet : List Char := ['.', ',', '(', ')', '"']

/-- Python `str.strip('.,()\x22')`: remove those characters from both ends. -/
def pyStrip (s : String) : String :=
  String.mk (((s.data.dropWhile (stripSet.contains ·)).reverse.dropWhile
    (stripSet.contains ·)).reverse)

/-- Python `str.strip()` with no arguments: remove whitespace from both ends. -/
def pyStripWS (s : String) : String :=
  String.mk (((s.data.dropWhile pyIsSpace).reverse.dropWhile pyIsSpace).reverse)

/-- Python `"sep".join(l)`. -/
def pyJoin (sep : String) : List String → String
  | [] => ""
  | [x] => x
  | x :: y :: t => x ++ sep ++ pyJoin sep (y :: t)

/-- Python truthiness of an optional string: `None` and `""` are falsy. -/
def pyTruthy : Option String → Bool
  | none => false
  | some s => !(s == "")

/-- Python `a or b` on optional strings: `b` when `a` is falsy. -/
def pyOrStr (a b : Option String) : Option String :=
  if pyTruthy a then a else b

/-- Python f-string rendering of an optional string (`None` prints as
the four characters `None`). -/
def pyStr : Option String → String
  | none => "None"
  | some s => s

/-! ## Category classifier (`detect_category`, `src/src/query.py` lines 106-130) -/

/-- The `category_keywords` table of `detect_category`, in declaration order. -/
def category_keywords : List (String × List String) :=
  [("Admissions", ["apply", "admission", "accept", "requirements", "application", "enroll"]),
   ("Fees", ["fee", "tuition", "cost", "payment", "credit", "price", "pay", "refund"]),
   ("Academics", ["gpa", "grades", "scores", "grade", "cgpa", "dean"]),
   ("Academic Advising", ["advisor", "track", "course", "major", "register", "summer course"]),
   ("IT & Systems", ["portal", "moodle", "login", "system", "technical", "support"]),
   ("Emails", ["email", "gmail", "outlook", "mail", "inbox", "address", "contact email"])]

/-- `sum(1 for keyword in keywords if keyword in query_lower)`. -/
def keywordScore (query_lower : String) (kws : List String) : Nat :=
  (kws.filter (fun k => strContains query_lower k)).length

/-- Python `max(d, key=d.get)` over an insertion-ordered dict given as an
association list: the first key attaining the maximal value (Python `max`
only replaces the current best on a strictly greater value). -/
def pyMaxByScore : List (String × Nat) → Option String
  | [] => none
  | x :: xs => some ((xs.foldl (fun best y => if best.2 < y.2 then y else best) x).1)

/-- `detect_category(query)`: count keyword hits per category, keep the
categories with positive score (in declaration order, as a Python dict
preserves insertion order), and return the one with the highest score,
or `None` when no keyword matches. -/
def detect_category (query : String) : Option String :=
  let query_lower := pyLower query
  let category_scores := category_keywords.filterMap (fun ck =>
    if 0 < keywordScore query_lower ck.2 then
      some (ck.1, keywordScore query_lower ck.2)
    else none)
  pyMaxByScore category_scores

/-- Modelled from the spec (section 4.1), for comparison with
`detect_category`: "Return the category with the maximum count; ties broken
by enumeration order (first-declared wins). Return no category if no
keyword hits." -/
def specMaxScore (l : List (String × Nat)) : Nat := (l.map Prod.snd).foldr max 0

/-- Modelled from the spec (section 4.1): the first category, in declaration
order, whose hit count equals the maximum hit count; `none` when every
count is zero. -/
def specClassify (query : String) : Option String :=
  let scored := category_keywords.map (fun ck =>
    (ck.1, keywordScore (pyLower query) ck.2))
  if specMaxScore scored = 0 then none
  else (scored.find? (fun p => p.2 == specMaxScore scored)).map Prod.fst

/-- The closed category enumeration returned by the `/categories` endpoint
(`src/api.py` lines 211-224). -/
def api_categories : List String :=
  ["Admissions", "Fees", "Academics", "Academic Advising", "IT & Systems", "Emails", "General"]

/-! ## Conversation memory (`src/src/utils.py` lines 44-87) -/

/-- One question/answer pair stored in memory. -/
structure Interaction where
  question : String
  answer : String
deriving DecidableEq, Repr

/-- `ConversationMemory`: window buffer of the last `window_size` turns. -/
structure ConversationMemory where
  window_size : Nat
  history : List Interaction
deriving DecidableEq, Repr

/-- `ConversationMemory(window_size=w)`: starts with an empty history. -/
def ConversationMemory.empty (w : Nat) : ConversationMemory := ⟨w, []⟩

/-- Python `lst[-w:]`. For `w > 0` this is the last `min(w, len)` elements;
Python's `lst[-0:]` is the whole list, which the model reproduces. -/
def pyTail (l : List α) (w : Nat) : List α :=
  if w = 0 then l else l.drop (l.length - w)

/-- `add_interaction`: append the pair, then truncate to the last
`window_size` entries when over capacity. -/
def ConversationMemory.add_interaction (m : ConversationMemory) (q a : String) :
    ConversationMemory :=
  let h := m.history ++ [⟨q, a⟩]
  if m.window_size < h.length then ⟨m.window_size, pyTail h m.window_size⟩
  else ⟨m.window_size, h⟩

/-- `get_history`: the stored history, oldest first. -/
def ConversationMemory.get_history (m : ConversationMemory) : List Interaction :=
  m.history

/-- `__len__`: number of stored interactions. -/
def ConversationMemory.size (m : ConversationMemory) : Nat := m.history.length

/-- `clear`: drop all history. -/
def ConversationMemory.clear (m : ConversationMemory) : ConversationMemory :=
  ⟨m.window_size, []⟩

/-- A sequence of `add_interaction` calls, in call order. -/
def addAll (m : ConversationMemory) (ps : List Interaction) : ConversationMemory :=
  ps.foldl (fun mem p => mem.add_interaction p.question p.answer) m

/-! ## Query log (`save_result`, `src/src/query.py` lines 16-41) -/

/-- The record appended per answered query. -/
structure LogRecord where
  query : String
  answer : String
  sources : List String
  timestamp : String
deriving DecidableEq, Repr

/-- A decoded JSON value of the results file, as far as `save_result`
distinguishes it: either a JSON list of records, or some other JSON value
(which the code wraps into a one-element list); a non-list value is
modelled as the single record it contributes. -/
inductive LogJson where
  | jlist (rs : List LogRecord)
  | other (r : LogRecord)
deriving DecidableEq, Repr

/-- The state of the results file before a `save_result` call. -/
inductive LogFile where
  /-- `os.path.exists` is false. -/
  | absent
  /-- The file exists but `json.load` raises `JSONDecodeError`
  (the code then starts from `data = []`). -/
  | undecodable
  /-- The file exists and decodes to `v`. -/
  | decoded (v : LogJson)
deriving DecidableEq, Repr

/-- `save_result`: read the existing file, normalise it to a list,
append the new record, rewrite the file. -/
def save_result (file : LogFile) (rec : LogRecord) : LogFile :=
  match file with
  | .absent => .decoded (.jlist [rec])
  | .undecodable => .decoded (.jlist [rec])
  | .decoded (.jlist rs) => .decoded (.jlist (rs ++ [rec]))
  | .decoded (.other r) => .decoded (.jlist ([r] ++ [rec]))

/-- The well-formed records a file state holds (an undecodable file holds
no decodable records). -/
def logRecords : LogFile → List LogRecord
  | .absent => []
  | .undecodable => []
  | .decoded (.jlist rs) => rs
  | .decoded (.other r) => [r]

/-! ## Keyword fallback retriever (`local_retrieve`, `src/src/query.py` lines 132-191) -/

/-- One record of the flat `data.json` dataset, with the defaults the code
applies on access: `qa_id = str(entry.get("id", ""))`,
`category = entry.get("category", "General")`, and `question`/`answer`
passed through `str(...)`. -/
structure QAEntry where
  qa_id : String
  category : String
  question : String
  answer : String
deriving DecidableEq, Repr

/-- A retrieval-result metadata dict. A `none` field models an absent key
(Chroma-side metadata may lack any of them; `local_retrieve` always fills
all of them). -/
structure MetaDict where
  source : Option String
  qa_id : Option String
  category : Option String
  question : String
  answer : String
deriving DecidableEq, Repr

/-- Placeholder for total indexing (never hit on well-formed indices). -/
def defaultMeta : MetaDict := ⟨none, none, none, "", ""⟩

/-- `os.path.join(cwd, "data.json")`, modelled relative to the working
directory. -/
def json_path : String := "data.json"

/-- `f"Question: {qtext}\nAnswer: {atext}"`. -/
def combinedText (qtext atext : String) : String :=
  "Question: " ++ qtext ++ "\nAnswer: " ++ atext

/-- The candidate list `local_retrieve` builds from the dataset: skip
records failing the category filter, strip the question/answer text, keep
records with a non-empty question or answer, and pair the combined text
with its metadata dict. -/
def candidates (ds : List QAEntry) (category_filter : Option String) :
    List (String × MetaDict) :=
  ds.filterMap (fun e =>
    if pyTruthy category_filter && (e.category != category_filter.getD "") then none
    else
      let qtext := pyStripWS e.question
      let atext := pyStripWS e.answer
      if qtext != "" || atext != "" then
        some (combinedText qtext atext,
          ⟨some json_path, some e.qa_id, some e.category, qtext, atext⟩)
      else none)

/-- `set(w.lower() for w in query.split())`: the query token set — tokens
are lowercased but NOT punctuation-stripped. -/
def qTokens (query : String) : List String := (pySplit query).map pyLower

/-- `set(w.lower().strip('.,()\x22') for w in item.split())`: the record
token set — lowercased AND punctuation-stripped. -/
def itemTokens (item : String) : List String :=
  (pySplit item).map (fun w => pyStrip (pyLower w))

/-- `len(q_tokens & item_tokens)`: the keyword-overlap score. -/
def overlapScore (query item : String) : Nat :=
  ((qTokens query).toFinset ∩ (itemTokens item).toFinset).card

/-- Modelled from the spec (section 4.3, the wording claim C5 is drawn
from), for comparison with `qTokens`: the spec claims the QUERY tokens are
also punctuation-stripped. -/
def claimedQTokens (query : String) : List String :=
  (pySplit query).map (fun w => pyStrip (pyLower w))

/-- Modelled from the spec: the overlap score under the spec's claimed
tokenisation of the query. -/
def claimedOverlapScore (query item : String) : Nat :=
  ((claimedQTokens query).toFinset ∩ (itemTokens item).toFinset).card

/-- `sorted(enumerate(scores), key=lambda x: x[1], reverse=True)`:
Python's stable descending sort on the score component. A stable sort by a
total preorder is unique, so Mathlib's insertion sort with the non-strict
descending relation is exactly Python's (Timsort-implemented) `sorted`. -/
def sortDesc (l : List (Nat × Nat)) : List (Nat × Nat) :=
  List.insertionSort (fun p q => q.2 ≤ p.2) l

/-- The ranked `(index, score)` list of `local_retrieve`. -/
def rankedOf (query : String) (items : List String) : List (Nat × Nat) :=
  sortDesc ((items.map (overlapScore query)).enum)

/-- `ranked[:top_k]` filtered to strictly positive scores (`if s > 0`). -/
def selOf (query : String) (top_k : Nat) (items : List String) : List (Nat × Nat) :=
  ((rankedOf query items).take top_k).filter (fun p => decide (0 < p.2))

/-- `local_retrieve(query, top_k, category_filter)` over dataset `ds`:
build candidates, score by token overlap, rank descending (stable), and
return the top `top_k` documents and metadata with positive score. -/
def local_retrieve (query : String) (top_k : Nat) (category_filter : Option String)
    (ds : List QAEntry) : List String × List MetaDict :=
  let cands := candidates ds category_filter
  if cands.isEmpty then ([], [])
  else
    let items := cands.map Prod.fst
    let sel := selOf query top_k items
    (sel.map (fun p => items.getD p.1 ""),
     sel.map (fun p => (cands.map Prod.snd).getD p.1 defaultMeta))

/-! ## Context formatting and source extraction -/

/-- `format_context(docs, metas)` (`src/src/query.py` lines 93-104):
one fragment per zipped (document, metadata) pair, prefixed by the
category when the metadata carries a truthy one, newline-joined. -/
def format_context (docs : List String) (metas : List MetaDict) : String :=
  pyJoin "\n" ((docs.zip metas).map (fun dm =>
    if pyTruthy dm.2.category then
      "Category: " ++ dm.2.category.getD "" ++ "\n" ++ dm.1 ++ "\n---\n"
    else dm.1 ++ "\n---\n"))

/-- The provenance tag one metadata dict contributes (`src/api.py` lines
183-191): `"QA#{qa_id} ({category})"` for a truthy `qa_id` (a `None`
category prints as `None`), else the raw `source` when truthy, else
nothing. -/
def sourceTag (m : MetaDict) : Option String :=
  if pyTruthy m.qa_id then
    some ("QA#" ++ m.qa_id.getD "" ++ " (" ++ pyStr m.category ++ ")")
  else if pyTruthy m.source then m.source
  else none

/-- `sources = list(set(sources))` (`src/api.py` line 193): the
de-duplicated tag collection. Python's set iteration order is arbitrary;
the model fixes first-occurrence order and the theorems only use set
semantics (membership, nodup, count). -/
def extract_sources (metas : List MetaDict) : List String :=
  (metas.filterMap sourceTag).dedup

/-! ## The `/ask` orchestration (`ask_question`, `src/api.py` lines 100-209) -/

/-- Outcome of the vector try-block of `ask_question` for one request:
either something in it raised (in practice `embed([question])[0]` — the
embedding client returns `[]` on backend failure, so indexing raises
`IndexError`; `retrieve_with_chroma` itself swallows every error and
returns empty lists instead of raising), or the block runs and Chroma
retrieval behaves as the function `f` of the category filter (`top_k=5`
is applied inside the external store and folded into `f`). -/
inductive VectorOutcome where
  | raises
  | succeeds (f : Option String → List String × List MetaDict)

/-- The user-visible errors the endpoint raises before invoking the
generator: HTTP 400 for a blank question, HTTP 404 ("No relevant
information found") when the keyword fallback finds nothing. -/
inductive AskError where
  | emptyQuestion
  | notFound
deriving DecidableEq, Repr

/-- What the pipeline hands to the generator and returns to the caller:
the assembled context (embedded in the generation prompt), the retrieved
documents and metadata, the de-duplicated sources, and the effective
category. The generator call itself, the memory update and `save_result`
happen after this point in the code and only on this branch. -/
structure AskOutcome where
  ctx : String
  docs : List String
  metas : List MetaDict
  sources : List String
  detected : Option String
deriving DecidableEq, Repr

/-- Result of one `/ask` request: an HTTP error raised before generation,
or a successful outcome (the generator is invoked exactly on `ok`). -/
inductive AskResult where
  | error (e : AskError)
  | ok (out : AskOutcome)
deriving DecidableEq, Repr

/-- Lines 124-136 of `src/api.py`: filtered Chroma retrieval, then the
broaden-on-miss retry without the filter when the first attempt returned
no documents and a category filter was active. -/
def vectorAttempt (f : Option String → List String × List MetaDict)
    (detected : Option String) : List String × List MetaDict :=
  let r := f detected
  if r.1.isEmpty && pyTruthy detected then f none else r

/-- Lines 138-146 of `src/api.py`: keyword fallback with `top_k=3`, same
broaden-on-miss retry. -/
def localAttempt (question : String) (detected : Option String)
    (ds : List QAEntry) : List String × List MetaDict :=
  let r := local_retrieve question 3 detected ds
  if r.1.isEmpty && pyTruthy detected then local_retrieve question 3 none ds else r

/-- The `/ask` pipeline (`src/api.py` lines 100-209): validate the
question, resolve the effective category (caller override `or`
auto-detection), run the vector attempt — falling back to the keyword
retriever only when the vector block raises — and either raise 404 (only
reachable on the fallback path) or return the outcome on which the
generator is invoked. -/
def ask_question (vec : VectorOutcome) (ds : List QAEntry) (rawQ : String)
    (reqCategory : Option String) : AskResult :=
  if pyStripWS rawQ == "" then .error .emptyQuestion
  else
    let question := pyStripWS rawQ
    let detected := pyOrStr reqCategory (detect_category question)
    match vec with
    | .succeeds f =>
        let r := vectorAttempt f detected
        .ok ⟨format_context r.1 r.2, r.1, r.2, extract_sources r.2, detected⟩
    | .raises =>
        let r := localAttempt question detected ds
        if r.1.isEmpty then .error .notFound
        else .ok ⟨format_context r.1 r.2, r.1, r.2, extract_sources r.2, detected⟩

/-- The one-record dataset of end-to-end scenario 1 of the spec. -/
def scenarioEntry : QAEntry :=
  ⟨"1", "Fees", "What is tuition?", "10000 per year"⟩

/-! ## Helper lemmas: conversation memory -/

/-- Invariant of iterated `add_interaction`: starting from any in-capacity
history `L`, running all of `ps` leaves exactly the last `window_size`
elements of `L ++ ps`. -/
theorem addAll_history (W : Nat) (hW : 0 < W) :
    ∀ (ps : List Interaction) (L : List Interaction), L.length ≤ W →
      (addAll ⟨W, L⟩ ps).history = (L ++ ps).drop (L.length + ps.length - W) := by
  intro ps
  induction ps with
  | nil =>
    intro L hL
    simp [addAll, Nat.sub_eq_zero_of_le hL]
  | cons p t ih =>
    intro L hL
    have hstep : addAll ⟨W, L⟩ (p :: t)
        = addAll (ConversationMemory.add_interaction ⟨W, L⟩ p.question p.answer) t := rfl
    rw [hstep]
    have heta : (⟨p.question, p.answer⟩ : Interaction) = p := rfl
    by_cases hcap : W < L.length + 1
    · have hLW : L.length = W := by omega
      have hc1 : W < (L ++ [p]).length := by simp; omega
      have hc2 : (L ++ [p]).length - W = 1 := by simp; omega
      have hadd : ConversationMemory.add_interaction ⟨W, L⟩ p.question p.answer
          = ⟨W, (L ++ [p]).drop 1⟩ := by
        simp only [ConversationMemory.add_interaction, heta]
        rw [if_pos hc1]
        simp only [pyTail]
        rw [if_neg (by omega : ¬ W = 0), hc2]
      rw [hadd]
      have hlen1 : ((L ++ [p]).drop 1).length ≤ W := by
        rw [List.length_drop]; simp; omega
      rw [ih _ hlen1]
      rw [List.length_drop]
      have hidx1 : (L ++ [p]).length - 1 + t.length - W = t.length := by
        simp; omega
      rw [hidx1]
      rw [← List.drop_append_of_le_length (by simp : 1 ≤ (L ++ [p]).length)]
      rw [List.drop_drop]
      rw [List.append_assoc, List.singleton_append]
      have hidx2 : 1 + t.length = L.length + (p :: t).length - W := by
        simp; omega
      rw [hidx2]
    · have hc1 : ¬ W < (L ++ [p]).length := by simp; omega
      have hadd : ConversationMemory.add_interaction ⟨W, L⟩ p.question p.answer
          = ⟨W, L ++ [p]⟩ := by
        simp only [ConversationMemory.add_interaction, heta]
        rw [if_neg hc1]
      rw [hadd]
      have hle : (L ++ [p]).length ≤ W := by simp at hc1 ⊢; omega
      rw [ih _ hle]
      rw [List.append_assoc, List.singleton_append]
      have hidx : (L ++ [p]).length + t.length - W = L.length + (p :: t).length - W := by
        simp; omega
      rw [hidx]

/-- Helper: one `save_result` call appends exactly the new record. -/
theorem logRecords_save (file : LogFile) (rec : LogRecord) :
    logRecords (save_result file rec) = logRecords file ++ [rec] := by
  cases file with
  | absent => rfl
  | undecodable => rfl
  | decoded v => cases v <;> rfl

/-- C3: for every window size `W > 0` and every `k ≥ 0`, after `W + k`
calls to `add_interaction` starting from an empty memory, `size` equals
`min (W + k) W` and the history is exactly the last `min (W + k) W = W`
added pairs in call order (i.e. the input list with its first `k` entries
dropped); moreover, at capacity one `add_interaction` evicts exactly the
oldest entry and appends the new pair, preserving the order of the rest. -/
theorem memory_window_correct (W k : Nat) (ps : List Interaction)
    (hW : 0 < W) (hlen : ps.length = W + k) :
    (addAll (ConversationMemory.empty W) ps).size = min (W + k) W
  ∧ (addAll (ConversationMemory.empty W) ps).get_history = ps.drop k
  ∧ (∀ (m : ConversationMemory) (q a : String),
      0 < m.window_size → m.history.length = m.window_size →
      (m.add_interaction q a).history = m.history.tail ++ [⟨q, a⟩]) := by
  have h := addAll_history W hW ps [] (by simp)
  simp only [List.nil_append, List.length_nil, Nat.zero_add] at h
  have hdrop : ps.length - W = k := by omega
  rw [hdrop] at h
  refine ⟨?_, ?_, ?_⟩
  · show (addAll ⟨W, []⟩ ps).history.length = min (W + k) W
    rw [h, List.length_drop]
    omega
  · show (addAll ⟨W, []⟩ ps).history = ps.drop k
    exact h
  · intro m q a h0 hcapEq
    have hcap : m.window_size < (m.history ++ [(⟨q, a⟩ : Interaction)]).length := by
      simp; omega
    show (m.add_interaction q a).history = m.history.tail ++ [⟨q, a⟩]
    simp only [ConversationMemory.add_interaction]
    rw [if_pos hcap]
    simp only [pyTail]
    rw [if_neg (by omega : ¬ m.window_size = 0)]
    have hd : (m.history ++ [(⟨q, a⟩ : Interaction)]).length - m.window_size = 1 := by
      simp; omega
    rw [hd, List.drop_append_of_le_length (by omega : 1 ≤ m.history.length),
      List.drop_one]

/-- Witness for C3 at concrete input: window `W = 2`, three additions
(the spec's end-to-end scenario 4) keep only the last two pairs. -/
theorem memory_window_correct_witness :
    (addAll (ConversationMemory.empty 2)
        [⟨"q1", "a1"⟩, ⟨"q2", "a2"⟩, ⟨"q3", "a3"⟩]).size = min (2 + 1) 2
  ∧ (addAll (ConversationMemory.empty 2)
        [⟨"q1", "a1"⟩, ⟨"q2", "a2"⟩, ⟨"q3", "a3"⟩]).get_history
      = [⟨"q1", "a1"⟩, ⟨"q2", "a2"⟩, ⟨"q3", "a3"⟩].drop 1 :=
  ⟨(memory_window_correct 2 1 [⟨"q1", "a1"⟩, ⟨"q2", "a2"⟩, ⟨"q3", "a3"⟩]
      (by decide) (by decide)).1,
   (memory_window_correct 2 1 [⟨"q1", "a1"⟩, ⟨"q2", "a2"⟩, ⟨"q3", "a3"⟩]
      (by decide) (by decide)).2.1⟩

/-- C9: `save_result` extends the decodable record list by exactly the one
new record and preserves every previously stored record unchanged, for
every prior file state (absent and undecodable states hold no decodable
records; a non-list JSON value is wrapped, not dropped); the rewritten
file is always a JSON list, so iterating `save_result` from any initial
state appends the whole call sequence in order, never mutating or
deleting existing entries. -/
theorem save_result_append_only (file : LogFile) (rec : LogRecord) :
    logRecords (save_result file rec) = logRecords file ++ [rec]
  ∧ (∃ rs, save_result file rec = .decoded (.jlist rs))
  ∧ (∀ (init : LogFile) (recs : List LogRecord),
      logRecords (recs.foldl save_result init) = logRecords init ++ recs) := by
  refine ⟨logRecords_save file rec, ?_, ?_⟩
  · cases file with
    | absent => exact ⟨[rec], rfl⟩
    | undecodable => exact ⟨[rec], rfl⟩
    | decoded v =>
      cases v with
      | jlist rs => exact ⟨rs ++ [rec], rfl⟩
      | other r => exact ⟨[r] ++ [rec], rfl⟩
  · intro init recs
    induction recs generalizing init with
    | nil => simp
    | cons r t ih =>
      rw [List.foldl_cons, ih (save_result init r), logRecords_save]
      simp

/-! ## Helper lemmas: category classifier -/

/-- The positive-score filter `detect_category` applies before taking the
maximum (only categories with `score > 0` enter `category_scores`). -/
def posOnly (l : List (String × Nat)) : List (String × Nat) :=
  l.filterMap (fun p => if 0 < p.2 then some p else none)

theorem mem_posOnly {l : List (String × Nat)} {p : String × Nat}
    (h : p ∈ posOnly l) : p ∈ l ∧ 0 < p.2 := by
  obtain ⟨a, ha, hap⟩ := List.mem_filterMap.mp h
  by_cases h2 : 0 < a.2
  · rw [if_pos h2] at hap
    cases hap
    exact ⟨ha, h2⟩
  · rw [if_neg h2] at hap
    cases hap

theorem specMaxScore_cons (p : String × Nat) (l : List (String × Nat)) :
    specMaxScore (p :: l) = max p.2 (specMaxScore l) := rfl

theorem specMaxScore_posOnly (l : List (String × Nat)) :
    specMaxScore (posOnly l) = specMaxScore l := by
  induction l with
  | nil => rfl
  | cons p t ih =>
    by_cases h2 : 0 < p.2
    · have : posOnly (p :: t) = p :: posOnly t := by
        simp [posOnly, List.filterMap_cons, h2]
      rw [this, specMaxScore_cons, specMaxScore_cons, ih]
    · have h0 : p.2 = 0 := by omega
      have : posOnly (p :: t) = posOnly t := by
        simp [posOnly, List.filterMap_cons, h2]
      rw [this, ih, specMaxScore_cons, h0]
      omega

theorem le_specMaxScore_of_mem {l : List (String × Nat)} {p : String × Nat}
    (h : p ∈ l) : p.2 ≤ specMaxScore l := by
  induction l with
  | nil => cases h
  | cons q t ih =>
    rw [specMaxScore_cons]
    rcases List.mem_cons.mp h with h1 | h1
    · subst h1; omega
    · have := ih h1; omega

theorem specMaxScore_attained {l : List (String × Nat)}
    (h : specMaxScore l ≠ 0) : ∃ p ∈ l, p.2 = specMaxScore l := by
  induction l with
  | nil => exact absurd rfl h
  | cons q t ih =>
    rw [specMaxScore_cons] at h ⊢
    by_cases hle : specMaxScore t ≤ q.2
    · exact ⟨q, List.mem_cons_self q t, by omega⟩
    · have ht : specMaxScore t ≠ 0 := by omega
      obtain ⟨p, hp, hpv⟩ := ih ht
      exact ⟨p, List.mem_cons_of_mem q hp, by omega⟩

theorem posOnly_eq_nil_iff (l : List (String × Nat)) :
    posOnly l = [] ↔ specMaxScore l = 0 := by
  induction l with
  | nil => simp [posOnly, specMaxScore]
  | cons p t ih =>
    rw [specMaxScore_cons]
    by_cases h2 : 0 < p.2
    · have : posOnly (p :: t) = p :: posOnly t := by
        simp [posOnly, List.filterMap_cons, h2]
      rw [this]
      constructor
      · intro h; cases h
      · intro h; omega
    · have : posOnly (p :: t) = posOnly t := by
        simp [posOnly, List.filterMap_cons, h2]
      rw [this, ih]
      omega

theorem find?_posOnly (l : List (String × Nat)) (M : Nat) (hM : 0 < M) :
    (posOnly l).find? (fun p => p.2 == M) = l.find? (fun p => p.2 == M) := by
  induction l with
  | nil => rfl
  | cons p t ih =>
    by_cases h2 : 0 < p.2
    · have hpos : posOnly (p :: t) = p :: posOnly t := by
        simp [posOnly, List.filterMap_cons, h2]
      rw [hpos]
      by_cases hpM : p.2 = M
      · rw [List.find?_cons_of_pos _ (by simp [hpM]),
          List.find?_cons_of_pos _ (by simp [hpM])]
      · rw [List.find?_cons_of_neg _ (by simp [hpM]),
          List.find?_cons_of_neg _ (by simp [hpM]), ih]
    · have h0 : p.2 = 0 := by omega
      have hpos : posOnly (p :: t) = posOnly t := by
        simp [posOnly, List.filterMap_cons, h2]
      rw [hpos, List.find?_cons_of_neg _ (by simp [h0]; omega), ih]

/-- Characterisation of a left fold with Python `max` semantics (replace
only on a strictly greater value): it returns the accumulator when nothing
beats it, and otherwise the first list element attaining the maximum. -/
theorem foldl_pickMax (x : String × Nat) (l : List (String × Nat)) :
    l.foldl (fun best y => if best.2 < y.2 then y else best) x
      = if specMaxScore l ≤ x.2 then x
        else (l.find? (fun p => p.2 == specMaxScore l)).getD x := by
  induction l generalizing x with
  | nil => simp [specMaxScore]
  | cons y t ih =>
    rw [List.foldl_cons, specMaxScore_cons]
    by_cases hxy : x.2 < y.2
    · rw [if_pos hxy, ih y]
      by_cases hty : specMaxScore t ≤ y.2
      · rw [if_pos hty]
        have hmax : max y.2 (specMaxScore t) = y.2 := by omega
        have hfy : List.find? (fun p => p.2 == y.2) (y :: t) = some y := by simp
        rw [hmax, if_neg (by omega : ¬ y.2 ≤ x.2), hfy]
        rfl
      · rw [if_neg hty]
        have hmax : max y.2 (specMaxScore t) = specMaxScore t := by omega
        have hne : ¬ y.2 = specMaxScore t := by omega
        have hfy : List.find? (fun p => p.2 == specMaxScore t) (y :: t)
            = List.find? (fun p => p.2 == specMaxScore t) t := by simp [hne]
        rw [hmax, if_neg (by omega : ¬ specMaxScore t ≤ x.2), hfy]
        obtain ⟨p, hp, hpv⟩ := specMaxScore_attained
          (by omega : specMaxScore t ≠ 0)
        have hsome : (List.find? (fun q => q.2 == specMaxScore t) t).isSome :=
          List.find?_isSome.mpr ⟨p, hp, by simp [hpv]⟩
        obtain ⟨z, hz⟩ := Option.isSome_iff_exists.mp hsome
        rw [hz]
        rfl
    · rw [if_neg hxy, ih x]
      by_cases htx : specMaxScore t ≤ x.2
      · rw [if_pos htx, if_pos (by omega : max y.2 (specMaxScore t) ≤ x.2)]
      · rw [if_neg htx]
        have hmax : max y.2 (specMaxScore t) = specMaxScore t := by omega
        rw [hmax, if_neg htx,
          List.find?_cons_of_neg _ (by simp; omega)]

/-- The value `detect_category` computes, characterised through the
spec-side maximum: first category attaining the (positive) maximal score. -/
theorem pyMaxByScore_posOnly (l : List (String × Nat)) :
    pyMaxByScore (posOnly l)
      = if specMaxScore l = 0 then none
        else (l.find? (fun p => p.2 == specMaxScore l)).map Prod.fst := by
  cases hpos : posOnly l with
  | nil =>
    rw [if_pos ((posOnly_eq_nil_iff l).mp hpos)]
    rfl
  | cons x xs =>
    have hx : x ∈ posOnly l := by rw [hpos]; exact List.mem_cons_self x xs
    obtain ⟨hxl, hxpos⟩ := mem_posOnly hx
    have hMeq : specMaxScore l = specMaxScore (x :: xs) := by
      rw [← specMaxScore_posOnly l, hpos]
    have hM : specMaxScore l ≠ 0 := by
      rw [hMeq, specMaxScore_cons]; omega
    rw [if_neg hM]
    have hfind : l.find? (fun p => p.2 == specMaxScore l)
        = (x :: xs).find? (fun p => p.2 == specMaxScore l) := by
      rw [← find?_posOnly l (specMaxScore l) (by omega), hpos]
    rw [hfind]
    show some ((xs.foldl (fun best y => if best.2 < y.2 then y else best) x).1) = _
    rw [foldl_pickMax, hMeq, specMaxScore_cons]
    by_cases hxs : specMaxScore xs ≤ x.2
    · have hmax : max x.2 (specMaxScore xs) = x.2 := by omega
      have hfx : List.find? (fun p => p.2 == x.2) (x :: xs) = some x := by simp
      rw [if_pos hxs, hmax, hfx]
      rfl
    · have hmax : max x.2 (specMaxScore xs) = specMaxScore xs := by omega
      have hne : ¬ x.2 = specMaxScore xs := by omega
      have hfx : List.find? (fun p => p.2 == specMaxScore xs) (x :: xs)
          = List.find? (fun p => p.2 == specMaxScore xs) xs := by simp [hne]
      rw [if_neg hxs, hmax, hfx]
      obtain ⟨p, hp, hpv⟩ := specMaxScore_attained
        (by omega : specMaxScore xs ≠ 0)
      have hsome : (List.find? (fun q => q.2 == specMaxScore xs) xs).isSome :=
        List.find?_isSome.mpr ⟨p, hp, by simp [hpv]⟩
      obtain ⟨z, hz⟩ := Option.isSome_iff_exists.mp hsome
      rw [hz]
      rfl

/-- Helper: the spec-side selection returns `c` whenever `(c, v)` scores
positively and every differently-named entry scores zero. -/
theorem specSelect_unique (scored : List (String × Nat)) (c : String) (v : Nat)
    (hmem : (c, v) ∈ scored) (hv : 0 < v)
    (hothers : ∀ p ∈ scored, p.1 ≠ c → p.2 = 0) :
    (if specMaxScore scored = 0 then none
     else (scored.find? (fun p => p.2 == specMaxScore scored)).map Prod.fst)
      = some c := by
  have hle : v ≤ specMaxScore scored := le_specMaxScore_of_mem hmem
  have hM0 : ¬ specMaxScore scored = 0 := by omega
  rw [if_neg hM0]
  obtain ⟨p0, hp0, hp0v⟩ := specMaxScore_attained hM0
  have hsome : (scored.find? (fun p => p.2 == specMaxScore scored)).isSome :=
    List.find?_isSome.mpr ⟨p0, hp0, by simp [hp0v]⟩
  obtain ⟨z, hz⟩ := Option.isSome_iff_exists.mp hsome
  rw [hz]
  have hz1 : z ∈ scored := List.mem_of_find?_eq_some hz
  have hz2 : z.2 = specMaxScore scored := by
    have := List.find?_some hz
    simpa using this
  by_cases hne : z.1 = c
  · simp [hne]
  · have : z.2 = 0 := hothers z hz1 hne
    omega

/-- C4: `detect_category` agrees everywhere with the spec-side classifier
(maximum keyword-hit count, ties broken by declaration order with the
first-declared category winning, `none` when no keyword of any category
occurs in the lowercased question); in particular, when exactly one
category has a positive hit count, that category is returned.
Determinism and totality hold by construction: the model is a pure
function. -/
theorem detect_category_correct (q : String) :
    detect_category q = specClassify q
  ∧ (∀ ck ∈ category_keywords,
      0 < keywordScore (pyLower q) ck.2 →
      (∀ ck2 ∈ category_keywords, ck2.1 ≠ ck.1 →
        keywordScore (pyLower q) ck2.2 = 0) →
      detect_category q = some ck.1) := by
  have hrw : detect_category q
      = pyMaxByScore (posOnly (category_keywords.map
          (fun ck => (ck.1, keywordScore (pyLower q) ck.2)))) := by
    unfold detect_category posOnly
    rw [List.filterMap_map]
    rfl
  have hmain : detect_category q = specClassify q := by
    rw [hrw, pyMaxByScore_posOnly]
    rfl
  refine ⟨hmain, ?_⟩
  intro ck hck hpos hothers
  rw [hmain]
  show (if specMaxScore (category_keywords.map
          (fun ck => (ck.1, keywordScore (pyLower q) ck.2))) = 0 then none
        else ((category_keywords.map
            (fun ck => (ck.1, keywordScore (pyLower q) ck.2))).find?
          (fun p => p.2 == specMaxScore (category_keywords.map
            (fun ck => (ck.1, keywordScore (pyLower q) ck.2))))).map Prod.fst)
      = some ck.1
  refine specSelect_unique _ ck.1 (keywordScore (pyLower q) ck.2)
    (List.mem_map_of_mem _ hck) hpos ?_
  intro p hp hpne
  obtain ⟨ck2, hck2, hpeq⟩ := List.mem_map.mp hp
  have h1 : p.1 = ck2.1 := by rw [← hpeq]
  have h2 : p.2 = keywordScore (pyLower q) ck2.2 := by rw [← hpeq]
  rw [h2]
  exact hothers ck2 hck2 (by rw [← h1]; exact hpne)

/-- Witness for C4 at concrete input: the question `tuition` hits only the
`Fees` keyword set, and `detect_category` returns `Fees`. -/
theorem detect_category_correct_witness :
    detect_category ("tuition") = some ("Fees") :=
  (detect_category_correct ("tuition")).2
    ("Fees", ["fee", "tuition", "cost", "payment", "credit", "price", "pay", "refund"])
    (by decide) (by decide) (by decide)

/-- C10: the classifier's result is always either `none` or the name of
one of the six keyword-scored categories of `category_keywords`; it is
never the label `General`, even though `General` belongs to the closed
enumeration `api_categories` exposed by the `/categories` endpoint (to
which all six classifier categories also belong). -/
theorem detect_category_never_general (q : String) :
    (detect_category q = none
      ∨ ∃ ck ∈ category_keywords, detect_category q = some ck.1)
  ∧ detect_category q ≠ some ("General")
  ∧ "General" ∈ api_categories
  ∧ (∀ ck ∈ category_keywords, ck.1 ∈ api_categories) := by
  have hrange : detect_category q = none
      ∨ ∃ ck ∈ category_keywords, detect_category q = some ck.1 := by
    cases hd : detect_category q with
    | none => exact Or.inl rfl
    | some c =>
      refine Or.inr ?_
      have : ∃ p ∈ (category_keywords.filterMap (fun ck =>
          if 0 < keywordScore (pyLower q) ck.2 then
            some (ck.1, keywordScore (pyLower q) ck.2)
          else none)), p.1 = c := by
        revert hd
        show pyMaxByScore _ = some c → _
        cases hl : (category_keywords.filterMap (fun ck =>
            if 0 < keywordScore (pyLower q) ck.2 then
              some (ck.1, keywordScore (pyLower q) ck.2)
            else none)) with
        | nil => intro h; cases h
        | cons x xs =>
          intro h
          have hfold : ∀ (l : List (String × Nat)) (acc : String × Nat),
              l.foldl (fun best y => if best.2 < y.2 then y else best) acc
                ∈ acc :: l := by
            intro l
            induction l with
            | nil => intro acc; exact List.mem_cons_self acc []
            | cons y t ih =>
              intro acc
              rw [List.foldl_cons]
              rcases List.mem_cons.mp (ih (if acc.2 < y.2 then y else acc)) with h1 | h1
              · rw [h1]
                by_cases hc : acc.2 < y.2
                · rw [if_pos hc]
                  exact List.mem_cons_of_mem acc (List.mem_cons_self y t)
                · rw [if_neg hc]
                  exact List.mem_cons_self acc (y :: t)
              · exact List.mem_cons_of_mem acc (List.mem_cons_of_mem y h1)
          have hmem := hfold xs x
          injection h with h
          exact ⟨_, hmem, h⟩
      obtain ⟨p, hp, hpc⟩ := this
      obtain ⟨ck, hck, hckp⟩ := List.mem_filterMap.mp hp
      by_cases hpos : 0 < keywordScore (pyLower q) ck.2
      · rw [if_pos hpos] at hckp
        refine ⟨ck, hck, ?_⟩
        injection hckp with hckp2
        rw [← hpc, ← hckp2]
      · rw [if_neg hpos] at hckp
        cases hckp
  refine ⟨hrange, ?_, by decide, by decide⟩
  intro hgen
  rcases hrange with h1 | ⟨ck, hck, hcke⟩
  · rw [h1] at hgen
    cases hgen
  · rw [hcke] at hgen
    injection hgen with hgen
    have hng : ∀ p ∈ category_keywords, p.1 ≠ ("General" : String) := by decide
    exact hng ck hck hgen

/-- Witness for C10 at concrete input. -/
theorem detect_category_never_general_witness :
    detect_category ("gpa") ≠ some ("General") :=
  (detect_category_never_general ("gpa")).2.1

/-! ## Helper lemmas: keyword overlap scoring and ranking -/

/-- Cardinality of a list-set intersection as a deduplicated filter. -/
theorem toFinset_inter_card (l m : List String) :
    (l.toFinset ∩ m.toFinset).card
      = ((l.filter (fun t => decide (t ∈ m))).dedup).length := by
  have h : (l.filter (fun t => decide (t ∈ m))).toFinset
      = l.toFinset ∩ m.toFinset := by
    ext x
    simp [List.mem_filter]
  rw [← h, List.card_toFinset]

/-- C5 (amended): in the keyword fallback retriever, only each record's
combined text has the punctuation characters `. , ( ) \x22` stripped from
its tokens; the query is tokenised by whitespace and lowercased but NOT
punctuation-stripped. The score is the cardinality of the set
intersection of the two token sets: each distinct common token counts
once (duplicates are not double-counted) and the score is
order-independent. -/
theorem overlap_score_amended (query item : String) :
    overlapScore query item
      = (((pySplit query).map pyLower).filter
          (fun t => decide (t ∈ (pySplit item).map (fun w => pyStrip (pyLower w))))).dedup.length
  ∧ overlapScore query item
      = ((itemTokens item).toFinset ∩ (qTokens query).toFinset).card := by
  constructor
  · exact toFinset_inter_card (qTokens query) (itemTokens item)
  · rw [overlapScore, Finset.inter_comm]

/-- C5 counterexample: the claim that the QUERY tokens are also
punctuation-stripped is false. For the query `tuition.` against the
record combining question `(tuition)` and an empty answer, the claimed
(both-sides-stripped) score is 1, so under the claim the retriever would
return the record; the code scores 0 (its query token set is the
singleton containing the four characters plus trailing dot) and
`local_retrieve` returns nothing. -/
theorem overlap_tokenisation_cx :
    overlapScore ("tuition.") (combinedText ("(tuition)") ("")) = 0
  ∧ claimedOverlapScore ("tuition.") (combinedText ("(tuition)") ("")) = 1
  ∧ local_retrieve ("tuition.") 3 none [⟨"7", "Fees", "(tuition)", ""⟩] = ([], []) :=
  ⟨by decide, by decide, by decide⟩

/-- The strict ranking relation realised by `local_retrieve`: strictly
greater overlap score first; on equal scores, smaller dataset index
(original dataset order) first. -/
def rankRel (p q : Nat × Nat) : Prop :=
  q.2 < p.2 ∨ (p.2 = q.2 ∧ p.1 < q.1)

theorem pairwise_rankRel_orderedInsert (x : Nat × Nat) (l : List (Nat × Nat))
    (hl : l.Pairwise rankRel) (hidx : ∀ y ∈ l, x.1 < y.1) :
    (l.orderedInsert (fun p q => q.2 ≤ p.2) x).Pairwise rankRel := by
  induction l with
  | nil => simp [List.orderedInsert, rankRel]
  | cons b t ih =>
    obtain ⟨hhead, htail⟩ := List.pairwise_cons.mp hl
    simp only [List.orderedInsert]
    by_cases hab : b.2 ≤ x.2
    · rw [if_pos hab]
      refine List.Pairwise.cons ?_ hl
      intro y hy
      rcases List.mem_cons.mp hy with h1 | h1
      · subst h1
        have hxb : x.1 < y.1 := hidx y (List.mem_cons_self y t)
        rcases Nat.lt_or_ge y.2 x.2 with h2 | h2
        · exact Or.inl h2
        · exact Or.inr ⟨by omega, hxb⟩
      · have hby := hhead y h1
        have hxy : x.1 < y.1 := hidx y (List.mem_cons_of_mem b h1)
        rcases hby with h2 | ⟨h2, h3⟩
        · exact Or.inl (by omega)
        · rcases Nat.lt_or_ge y.2 x.2 with h4 | h4
          · exact Or.inl h4
          · exact Or.inr ⟨by omega, hxy⟩
    · rw [if_neg hab]
      have hx2 : x.2 < b.2 := by omega
      refine List.Pairwise.cons ?_
        (ih htail (fun y hy => hidx y (List.mem_cons_of_mem b hy)))
      intro y hy
      rcases (List.mem_orderedInsert _).mp hy with h1 | h1
      · subst h1
        exact Or.inl hx2
      · exact hhead y h1

theorem pairwise_rankRel_insertionSort (l : List (Nat × Nat))
    (h : l.Pairwise (fun p q => p.1 < q.1)) :
    (List.insertionSort (fun p q => q.2 ≤ p.2) l).Pairwise rankRel := by
  induction l with
  | nil => simp [List.insertionSort]
  | cons x xs ih =>
    obtain ⟨hhead, htail⟩ := List.pairwise_cons.mp h
    simp only [List.insertionSort]
    exact pairwise_rankRel_orderedInsert x _ (ih htail)
      (fun y hy => hhead y ((List.mem_insertionSort _).mp hy))

theorem pairwise_fst_lt_enumFrom {α : Type} (l : List α) :
    ∀ n, (l.enumFrom n).Pairwise (fun p q => p.1 < q.1) := by
  induction l with
  | nil => intro n; simp
  | cons a t ih =>
    intro n
    simp only [List.enumFrom]
    refine List.Pairwise.cons ?_ (ih (n + 1))
    intro q hq
    have := (List.mem_enumFrom hq).1
    omega

theorem snd_mem_enumFrom {α : Type} {l : List α} :
    ∀ {n : Nat} {p : Nat × α}, p ∈ l.enumFrom n → p.2 ∈ l := by
  induction l with
  | nil => intro n p h; cases h
  | cons a t ih =>
    intro n p h
    simp only [List.enumFrom] at h
    rcases List.mem_cons.mp h with h1 | h1
    · rw [h1]
      exact List.mem_cons_self a t
    · exact List.mem_cons_of_mem a (ih h1)

/-- C6: `local_retrieve` returns at most `top_k` aligned document/metadata
pairs; its ranking is a permutation of the enumerated candidate scores,
sorted by strictly descending score with the original dataset order as
the stable tie-break (`rankRel`); every selected candidate has score
strictly greater than 0; and when the query has zero token overlap with
every candidate the result is empty, for every `top_k` (so the result may
legitimately hold fewer than `top_k` entries). -/
theorem local_retrieve_ranking (query : String) (k : Nat) (cf : Option String)
    (ds : List QAEntry) :
    (local_retrieve query k cf ds).1.length ≤ k
  ∧ (local_retrieve query k cf ds).2.length = (local_retrieve query k cf ds).1.length
  ∧ List.Perm (rankedOf query ((candidates ds cf).map Prod.fst))
      (((candidates ds cf).map Prod.fst).map (overlapScore query)).enum
  ∧ (selOf query k ((candidates ds cf).map Prod.fst)).Pairwise rankRel
  ∧ (∀ p ∈ selOf query k ((candidates ds cf).map Prod.fst), 0 < p.2)
  ∧ ((∀ c ∈ candidates ds cf, overlapScore query c.1 = 0) →
      local_retrieve query k cf ds = ([], [])) := by
  have hperm : List.Perm (rankedOf query ((candidates ds cf).map Prod.fst))
      (((candidates ds cf).map Prod.fst).map (overlapScore query)).enum :=
    List.perm_insertionSort _ _
  have hsub : List.Sublist (selOf query k ((candidates ds cf).map Prod.fst))
      (rankedOf query ((candidates ds cf).map Prod.fst)) :=
    (List.filter_sublist _).trans (List.take_sublist _ _)
  have hlen : (selOf query k ((candidates ds cf).map Prod.fst)).length ≤ k := by
    calc (selOf query k ((candidates ds cf).map Prod.fst)).length
        ≤ ((rankedOf query ((candidates ds cf).map Prod.fst)).take k).length :=
          (List.filter_sublist _).length_le
      _ ≤ k := by simp
  have hpos : ∀ p ∈ selOf query k ((candidates ds cf).map Prod.fst), 0 < p.2 := by
    intro p hp
    have := List.of_mem_filter hp
    simpa using this
  refine ⟨?_, ?_, hperm, ?_, hpos, ?_⟩
  · by_cases hc : (candidates ds cf).isEmpty
    · simp [local_retrieve, hc]
    · simp only [local_retrieve, hc, if_neg, Bool.false_eq_true, not_false_iff,
        ite_false, List.length_map]
      exact hlen
  · by_cases hc : (candidates ds cf).isEmpty
    · simp [local_retrieve, hc]
    · simp [local_retrieve, hc]
  · exact (pairwise_rankRel_insertionSort _
      (pairwise_fst_lt_enumFrom _ 0)).sublist hsub
  · intro hz
    have hsel : selOf query k ((candidates ds cf).map Prod.fst) = [] := by
      rw [selOf, List.filter_eq_nil_iff]
      intro p hp
      have hpr : p ∈ rankedOf query ((candidates ds cf).map Prod.fst) :=
        (List.take_sublist _ _).subset hp
      have hpe : p ∈ (((candidates ds cf).map Prod.fst).map (overlapScore query)).enum :=
        hperm.mem_iff.mp hpr
      have hps : p.2 ∈ ((candidates ds cf).map Prod.fst).map (overlapScore query) :=
        snd_mem_enumFrom hpe
      obtain ⟨item, hitem, hiv⟩ := List.mem_map.mp hps
      obtain ⟨c, hc, hceq⟩ := List.mem_map.mp hitem
      have : overlapScore query item = 0 := by
        rw [← hceq]
        exact hz c hc
      simp [← hiv, this]
    by_cases hc : (candidates ds cf).isEmpty
    · simp [local_retrieve, hc]
    · simp [local_retrieve, hc, hsel]

/-- Witness for C6 at concrete input: a query with zero overlap against a
one-record dataset yields the empty result even with `top_k = 7`. -/
theorem local_retrieve_ranking_witness :
    local_retrieve ("zzz") 7 none [⟨"1", "Fees", "What is tuition?", "10000 per year"⟩]
      = ([], []) :=
  (local_retrieve_ranking ("zzz") 7 none
      [⟨"1", "Fees", "What is tuition?", "10000 per year"⟩]).2.2.2.2.2
    (by decide)

/-! ## Helper lemmas: the `/ask` orchestration -/

/-- Unfolding of `ask_question` on a non-raising vector block and a
non-blank question. -/
theorem ask_question_succeeds (f : Option String → List String × List MetaDict)
    (ds : List QAEntry) (rawQ : String) (rc : Option String)
    (hq : (pyStripWS rawQ == "") = false) :
    ask_question (.succeeds f) ds rawQ rc
      = .ok ⟨format_context
               (vectorAttempt f (pyOrStr rc (detect_category (pyStripWS rawQ)))).1
               (vectorAttempt f (pyOrStr rc (detect_category (pyStripWS rawQ)))).2,
             (vectorAttempt f (pyOrStr rc (detect_category (pyStripWS rawQ)))).1,
             (vectorAttempt f (pyOrStr rc (detect_category (pyStripWS rawQ)))).2,
             extract_sources
               (vectorAttempt f (pyOrStr rc (detect_category (pyStripWS rawQ)))).2,
             pyOrStr rc (detect_category (pyStripWS rawQ))⟩ := by
  unfold ask_question
  rw [if_neg (by simp [hq])]

/-- Unfolding of `ask_question` on a raising vector block and a non-blank
question: the keyword fallback with `top_k = 3` decides between 404 and
the `ok` outcome. -/
theorem ask_question_raises (ds : List QAEntry) (rawQ : String) (rc : Option String)
    (hq : (pyStripWS rawQ == "") = false) :
    ask_question .raises ds rawQ rc
      = if (localAttempt (pyStripWS rawQ)
              (pyOrStr rc (detect_category (pyStripWS rawQ))) ds).1.isEmpty
        then AskResult.error .notFound
        else .ok ⟨format_context
                    (localAttempt (pyStripWS rawQ)
                      (pyOrStr rc (detect_category (pyStripWS rawQ))) ds).1
                    (localAttempt (pyStripWS rawQ)
                      (pyOrStr rc (detect_category (pyStripWS rawQ))) ds).2,
                  (localAttempt (pyStripWS rawQ)
                    (pyOrStr rc (detect_category (pyStripWS rawQ))) ds).1,
                  (localAttempt (pyStripWS rawQ)
                    (pyOrStr rc (detect_category (pyStripWS rawQ))) ds).2,
                  extract_sources (localAttempt (pyStripWS rawQ)
                    (pyOrStr rc (detect_category (pyStripWS rawQ))) ds).2,
                  pyOrStr rc (detect_category (pyStripWS rawQ))⟩ := by
  unfold ask_question
  rw [if_neg (by simp [hq])]

/-- With an empty filtered result and a truthy filter, the vector attempt
is exactly one unfiltered retry. -/
theorem vectorAttempt_broaden (f : Option String → List String × List MetaDict)
    (d : Option String) (h1 : (f d).1 = []) (h2 : pyTruthy d = true) :
    vectorAttempt f d = f none := by
  simp [vectorAttempt, h1, h2]

/-- With an empty filtered result and a truthy filter, the keyword attempt
is exactly one unfiltered retry. -/
theorem localAttempt_broaden (question : String) (d : Option String)
    (ds : List QAEntry) (h1 : (local_retrieve question 3 d ds).1 = [])
    (h2 : pyTruthy d = true) :
    localAttempt question d ds = local_retrieve question 3 none ds := by
  simp [localAttempt, h1, h2]

/-- With a falsy filter, no retry happens on the keyword attempt. -/
theorem localAttempt_falsy (question : String) (d : Option String)
    (ds : List QAEntry) (h2 : pyTruthy d = false) :
    localAttempt question d ds = local_retrieve question 3 d ds := by
  simp [localAttempt, h2]

/-- C1 counterexample: with the vector block completing normally but both
the filtered attempt and the broadened unfiltered retry returning zero
documents — exactly what `retrieve_with_chroma` produces when the vector
store is unavailable, since it swallows its own errors and returns empty
lists instead of raising — the pipeline does NOT fail with the 404 "not
found" condition: it returns an `ok` outcome whose context is the empty
string, i.e. the generator IS invoked with empty context. (`Fees` is the
auto-detected category, so the broadened retry really ran.) -/
theorem no_evidence_vector_cx :
    ask_question (.succeeds (fun _ => ([], []))) [] ("How much is tuition?") none
      = .ok ⟨"", [], [], [], some ("Fees")⟩
  ∧ ask_question (.succeeds (fun _ => ([], []))) [] ("How much is tuition?") none
      ≠ .error .notFound :=
  ⟨by decide, by decide⟩

/-- C1 (amended): the 404 "not found" failure arises exactly on the
keyword-fallback path: when the vector block raises and both the filtered
and the broadened keyword attempts return zero documents, the request
fails with 404 and no `ok` outcome is produced, so the generator is never
invoked. When the vector block completes without raising, a doubly-empty
retrieval instead yields an `ok` outcome with empty context handed to the
generator. -/
theorem no_evidence_amended (ds : List QAEntry) (rawQ : String) (rc : Option String)
    (hq : (pyStripWS rawQ == "") = false)
    (h1 : (local_retrieve (pyStripWS rawQ) 3
            (pyOrStr rc (detect_category (pyStripWS rawQ))) ds).1 = [])
    (h2 : (local_retrieve (pyStripWS rawQ) 3 none ds).1 = []) :
    ask_question .raises ds rawQ rc = .error .notFound
  ∧ (∀ f : Option String → List String × List MetaDict,
      f (pyOrStr rc (detect_category (pyStripWS rawQ))) = ([], []) →
      f none = ([], []) →
      ask_question (.succeeds f) ds rawQ rc
        = .ok ⟨"", [], [], [], pyOrStr rc (detect_category (pyStripWS rawQ))⟩) := by
  constructor
  · rw [ask_question_raises ds rawQ rc hq]
    by_cases hdt : pyTruthy (pyOrStr rc (detect_category (pyStripWS rawQ))) = true
    · rw [localAttempt_broaden _ _ _ h1 hdt, if_pos (by simp [h2])]
    · have hdf : pyTruthy (pyOrStr rc (detect_category (pyStripWS rawQ))) = false := by
        simpa using hdt
      rw [localAttempt_falsy _ _ _ hdf, if_pos (by simp [h1])]
  · intro f hf1 hf2
    rw [ask_question_succeeds f ds rawQ rc hq]
    have hva : vectorAttempt f (pyOrStr rc (detect_category (pyStripWS rawQ)))
        = ([], []) := by
      by_cases hdt : pyTruthy (pyOrStr rc (detect_category (pyStripWS rawQ))) = true
      · rw [vectorAttempt_broaden f _ (by rw [hf1]) hdt, hf2]
      · have hdf : pyTruthy (pyOrStr rc (detect_category (pyStripWS rawQ))) = false := by
          simpa using hdt
        simp [vectorAttempt, hdf, hf1]
    rw [hva]
    rfl

/-- Witness for the amended C1 at concrete input: a keyword-free question
over an empty dataset 404s on the raising path, and yields `ok` with
empty context on the non-raising path. -/
theorem no_evidence_amended_witness :
    ask_question .raises [] ("zzz") none = .error .notFound
  ∧ ask_question (.succeeds (fun _ => ([], []))) [] ("zzz") none
      = .ok ⟨"", [], [], [], pyOrStr none (detect_category (pyStripWS ("zzz")))⟩ :=
  ⟨(no_evidence_amended [] ("zzz") none (by decide) (by decide) (by decide)).1,
   (no_evidence_amended [] ("zzz") none (by decide) (by decide) (by decide)).2
     (fun _ => ([], [])) rfl rfl⟩

/-- C2 counterexample: with the scenario-1 dataset present but the vector
store unavailable (the vector block does not raise; `retrieve_with_chroma`
swallows the store failure and returns empty lists), the query of
scenario 1 does NOT reach the keyword fallback: the pipeline returns `ok`
with empty context and NO sources, not the claimed
`sources = ["QA#1 (Fees)"]` outcome. -/
theorem keyword_fallback_cx :
    ask_question (.succeeds (fun _ => ([], []))) [scenarioEntry]
        ("How much is tuition?") none
      = .ok ⟨"", [], [], [], some ("Fees")⟩
  ∧ ask_question (.succeeds (fun _ => ([], []))) [scenarioEntry]
        ("How much is tuition?") none
      ≠ .ok ⟨"Category: Fees\nQuestion: What is tuition?\nAnswer: 10000 per year\n---\n",
             [combinedText ("What is tuition?") ("10000 per year")],
             [⟨some json_path, some ("1"), some ("Fees"),
               "What is tuition?", "10000 per year"⟩],
             ["QA#1 (Fees)"], some ("Fees")⟩ :=
  ⟨by decide, by decide⟩

/-- C2 (amended): the full fallback to the keyword retriever (with
`top_k = 3`) happens exactly when the vector block raises — in practice an
embedding-service failure: `embed` returns `[]` on backend errors and the
`[0]` indexing raises — not when the store is merely unavailable. With
the vector block raising, scenario 1 holds as claimed: the one-record
dataset matches the query (on its overlapping tokens), the context is
non-empty, the generator is invoked, and the response carries
`sources = ["QA#1 (Fees)"]`. -/
theorem keyword_fallback_amended :
    ask_question .raises [scenarioEntry] ("How much is tuition?") none
      = .ok ⟨"Category: Fees\nQuestion: What is tuition?\nAnswer: 10000 per year\n---\n",
             [combinedText ("What is tuition?") ("10000 per year")],
             [⟨some json_path, some ("1"), some ("Fees"),
               "What is tuition?", "10000 per year"⟩],
             ["QA#1 (Fees)"], some ("Fees")⟩
  ∧ (∀ (ds : List QAEntry) (rawQ : String) (rc : Option String),
      (pyStripWS rawQ == "") = false →
      ask_question .raises ds rawQ rc
        = if (localAttempt (pyStripWS rawQ)
                (pyOrStr rc (detect_category (pyStripWS rawQ))) ds).1.isEmpty
          then AskResult.error .notFound
          else .ok ⟨format_context
                      (localAttempt (pyStripWS rawQ)
                        (pyOrStr rc (detect_category (pyStripWS rawQ))) ds).1
                      (localAttempt (pyStripWS rawQ)
                        (pyOrStr rc (detect_category (pyStripWS rawQ))) ds).2,
                    (localAttempt (pyStripWS rawQ)
                      (pyOrStr rc (detect_category (pyStripWS rawQ))) ds).1,
                    (localAttempt (pyStripWS rawQ)
                      (pyOrStr rc (detect_category (pyStripWS rawQ))) ds).2,
                    extract_sources (localAttempt (pyStripWS rawQ)
                      (pyOrStr rc (detect_category (pyStripWS rawQ))) ds).2,
                    pyOrStr rc (detect_category (pyStripWS rawQ))⟩) :=
  ⟨by decide, fun ds rawQ rc hq => ask_question_raises ds rawQ rc hq⟩

/-- Witness for the amended C2 at concrete input (the keyword-only
fallback equation applied to a concrete dataset and question). -/
theorem keyword_fallback_amended_witness :
    ask_question .raises [scenarioEntry] ("tuition") none
      = if (localAttempt (pyStripWS ("tuition"))
              (pyOrStr none (detect_category (pyStripWS ("tuition")))) [scenarioEntry]).1.isEmpty
        then AskResult.error .notFound
        else .ok ⟨format_context
                    (localAttempt (pyStripWS ("tuition"))
                      (pyOrStr none (detect_category (pyStripWS ("tuition")))) [scenarioEntry]).1
                    (localAttempt (pyStripWS ("tuition"))
                      (pyOrStr none (detect_category (pyStripWS ("tuition")))) [scenarioEntry]).2,
                  (localAttempt (pyStripWS ("tuition"))
                    (pyOrStr none (detect_category (pyStripWS ("tuition")))) [scenarioEntry]).1,
                  (localAttempt (pyStripWS ("tuition"))
                    (pyOrStr none (detect_category (pyStripWS ("tuition")))) [scenarioEntry]).2,
                  extract_sources (localAttempt (pyStripWS ("tuition"))
                    (pyOrStr none (detect_category (pyStripWS ("tuition")))) [scenarioEntry]).2,
                  pyOrStr none (detect_category (pyStripWS ("tuition")))⟩ :=
  keyword_fallback_amended.2 [scenarioEntry] ("tuition") none (by decide)

/-- C7: broaden-on-miss. With an active (truthy) category filter whose
filtered retrieval returns zero documents, the pipeline retries exactly
once with the filter removed and returns the unfiltered results as the
answer context — on the vector path unconditionally, and on the keyword
fallback path whenever the unfiltered retry is non-empty (so no "not
found" outcome is raised). -/
theorem broaden_on_miss (f : Option String → List String × List MetaDict)
    (ds : List QAEntry) (rawQ : String) (rc : Option String)
    (hq : (pyStripWS rawQ == "") = false)
    (hd : pyTruthy (pyOrStr rc (detect_category (pyStripWS rawQ))) = true) :
    ((f (pyOrStr rc (detect_category (pyStripWS rawQ)))).1 = [] →
      ask_question (.succeeds f) ds rawQ rc
        = .ok ⟨format_context (f none).1 (f none).2, (f none).1, (f none).2,
               extract_sources (f none).2,
               pyOrStr rc (detect_category (pyStripWS rawQ))⟩)
  ∧ ((local_retrieve (pyStripWS rawQ) 3
        (pyOrStr rc (detect_category (pyStripWS rawQ))) ds).1 = [] →
      (local_retrieve (pyStripWS rawQ) 3 none ds).1 ≠ [] →
      ask_question .raises ds rawQ rc
        = .ok ⟨format_context (local_retrieve (pyStripWS rawQ) 3 none ds).1
                 (local_retrieve (pyStripWS rawQ) 3 none ds).2,
               (local_retrieve (pyStripWS rawQ) 3 none ds).1,
               (local_retrieve (pyStripWS rawQ) 3 none ds).2,
               extract_sources (local_retrieve (pyStripWS rawQ) 3 none ds).2,
               pyOrStr rc (detect_category (pyStripWS rawQ))⟩) := by
  constructor
  · intro h1
    rw [ask_question_succeeds f ds rawQ rc hq, vectorAttempt_broaden f _ h1 hd]
  · intro h1 h2
    rw [ask_question_raises ds rawQ rc hq, localAttempt_broaden _ _ _ h1 hd,
      if_neg (by simp [List.isEmpty_iff]; exact h2)]

/-- A concrete Chroma oracle for the C7 witness: empty under any filter,
one document without a filter. -/
def demoVector : Option String → List String × List MetaDict :=
  fun cf =>
    match cf with
    | some _ => ([], [])
    | none => (["doc"], [⟨some ("src"), some ("9"), some ("Fees"), "", ""⟩])

/-- Witness for C7 at concrete input: the query `tuition` auto-detects the
`Fees` filter; the filtered attempts are empty on both paths, and the
pipeline returns the unfiltered results. -/
theorem broaden_on_miss_witness :
    ask_question (.succeeds demoVector) [] ("tuition") none
      = .ok ⟨format_context (demoVector none).1 (demoVector none).2,
             (demoVector none).1, (demoVector none).2,
             extract_sources (demoVector none).2,
             pyOrStr none (detect_category (pyStripWS ("tuition")))⟩
  ∧ ask_question .raises [⟨"2", "General", "tuition", "x"⟩] ("tuition") none
      = .ok ⟨format_context
               (local_retrieve (pyStripWS ("tuition")) 3 none
                 [⟨"2", "General", "tuition", "x"⟩]).1
               (local_retrieve (pyStripWS ("tuition")) 3 none
                 [⟨"2", "General", "tuition", "x"⟩]).2,
             (local_retrieve (pyStripWS ("tuition")) 3 none
               [⟨"2", "General", "tuition", "x"⟩]).1,
             (local_retrieve (pyStripWS ("tuition")) 3 none
               [⟨"2", "General", "tuition", "x"⟩]).2,
             extract_sources (local_retrieve (pyStripWS ("tuition")) 3 none
               [⟨"2", "General", "tuition", "x"⟩]).2,
             pyOrStr none (detect_category (pyStripWS ("tuition")))⟩ :=
  ⟨(broaden_on_miss demoVector [] ("tuition") none (by decide) (by decide)).1
     (by decide),
   (broaden_on_miss demoVector [⟨"2", "General", "tuition", "x"⟩] ("tuition") none
       (by decide) (by decide)).2
     (by decide) (by decide)⟩

/-- C8: the `sources` field of every answered request is the source-tag
collection of the returned metadata under set semantics: it has no
duplicates (each tag counts at most once, so two results with identical
`(qa_id, category)` contribute exactly one source string), and a string
belongs to it exactly when some metadata dict derives it — the tag
`QA#{id} ({category})` when `qa_id` is truthy, else the raw `source`
string when truthy; a dict with neither contributes nothing. Every `ok`
outcome of the pipeline carries exactly `extract_sources` of its metadata. -/
theorem sources_set_semantics (metas : List MetaDict) :
    (extract_sources metas).Nodup
  ∧ (∀ s, s ∈ extract_sources metas ↔ ∃ m ∈ metas, sourceTag m = some s)
  ∧ (∀ s, (extract_sources metas).count s ≤ 1)
  ∧ (∀ (vec : VectorOutcome) (ds : List QAEntry) (rawQ : String)
       (rc : Option String) (out : AskOutcome),
      ask_question vec ds rawQ rc = .ok out →
      out.sources = extract_sources out.metas) := by
  refine ⟨List.nodup_dedup _, ?_, ?_, ?_⟩
  · intro s
    simp [extract_sources, List.mem_dedup, List.mem_filterMap]
  · intro s
    exact List.nodup_iff_count_le_one.mp (List.nodup_dedup _) s
  · intro vec ds rawQ rc out h
    cases hb : (pyStripWS rawQ == "") with
    | true =>
      unfold ask_question at h
      rw [if_pos hb] at h
      simp at h
    | false =>
      cases vec with
      | succeeds f =>
        rw [ask_question_succeeds f ds rawQ rc hb] at h
        injection h with h2
        rw [← h2]
      | raises =>
        rw [ask_question_raises ds rawQ rc hb] at h
        by_cases hre : (localAttempt (pyStripWS rawQ)
            (pyOrStr rc (detect_category (pyStripWS rawQ))) ds).1.isEmpty
        · rw [if_pos hre] at h
          simp at h
        · rw [if_neg hre] at h
          injection h with h2
          rw [← h2]

/-- Witness for C8 at concrete input: an `ok` outcome of the pipeline
whose `sources` equals `extract_sources` of its metadata. -/
theorem sources_set_semantics_witness :
    (⟨"", [], [], [], none⟩ : AskOutcome).sources
      = extract_sources (⟨"", [], [], [], none⟩ : AskOutcome).metas :=
  (sources_set_semantics []).2.2.2 (.succeeds (fun _ => ([], []))) [] ("hi") none
    ⟨"", [], [], [], none⟩ (by decide)
